import Mathlib

/-
Verification of the adopter / adoption-center scoring program (src/frame.py).

Shallow embedding conventions:
* Python numbers (ints and floats) are modelled as `Int` / `ℚ`; all arithmetic in
  the program is exact decimal arithmetic, so `ℚ` is faithful for every value the
  program manipulates (the only float-specific operation, `'%.1f'` formatting, is
  modelled by `fmt1` below).
* A Python dict is an association list; insertion overrides the value stored at an
  existing key in place and appends fresh keys (the part of CPython dict behaviour
  the program relies on).
* `get_score` methods may receive the adoption center by reference and could mutate
  it, so they are embedded in state-passing style (`getScoreS`): every primitive
  center access returns the (possibly updated) center alongside its result.
* `SluggishAdopter.get_score` draws three uniform random numbers per call
  (`rand.uniform(0.7,0.9)`, `rand.uniform(0.5,0.7)`, `rand.uniform(0.1,0.5)`);
  the draws are passed in explicitly as a `Draws` triple `(u1, u2, u3)`.
-/

/-- `AdoptionCenter` from frame.py lines 12-19: a name, a dict from species name
to count, and a 2D location. -/
structure AdoptionCenter where
  name : String
  species_types : List (String × Int)
  location : ℚ × ℚ
deriving DecidableEq

/-- `AdoptionCenter.get_number_of_species` (frame.py lines 21-25): the stored
count, defaulting to 0 for an absent species. -/
def get_number_of_species (c : AdoptionCenter) (animal : String) : Int :=
  match c.species_types.lookup animal with
  | some n => n
  | none => 0

/-- Errors a call can surface: `typeError` stands for a Python `TypeError`,
`outOfStock` for the OutOfStock failure the specification asks of `adopt_pet`. -/
inductive PyErr where
  | typeError
  | outOfStock
deriving DecidableEq

/-- `AdoptionCenter.adopt_pet` (frame.py lines 33-37).  Its first expression is
`self.species_types.keys(0)`; `dict.keys` accepts no argument, so every call
raises `TypeError` before touching the inventory — the loop body and the final
decrement are unreachable. -/
def adopt_pet (_c : AdoptionCenter) (_species : String) : Except PyErr AdoptionCenter :=
  Except.error PyErr.typeError

/-- The behaviour the specification (section 4.1) prescribes for `adopt_pet`,
stated for comparison with the source's `adopt_pet`: decrement the inventory
entry by 1 if present and positive, otherwise fail with OutOfStock. -/
def adopt_pet_spec (c : AdoptionCenter) (species : String) : Except PyErr AdoptionCenter :=
  match c.species_types.lookup species with
  | some n =>
      if 0 < n then
        Except.ok
          { c with
            species_types :=
              c.species_types.map (fun p => if p.1 == species then (p.1, p.2 - 1) else p) }
      else Except.error PyErr.outOfStock
  | none => Except.error PyErr.outOfStock

/-- A value returned by a `get_score` method: either a plain Python number
(`num`, the base class and the `return 0` path of `AllergicAdopter`) or the
string produced by the stored `'%.1f'` format pattern (`fstr q`, holding the
number `q` the string denotes). -/
inductive ScoreVal where
  | num (q : ℚ)
  | fstr (q : ℚ)
deriving DecidableEq

/-- The numeric value `float(x)` recovers from a score, exactly what the ranking
functions compare: `float` of a plain number is itself, `float` of a
one-decimal string is the number it denotes. -/
def ScoreVal.toRat : ScoreVal → ℚ
  | .num q => q
  | .fstr q => q

/-- Whether a score value is a `'%.1f'`-formatted string rather than a number. -/
def ScoreVal.isFstr : ScoreVal → Bool
  | .num _ => false
  | .fstr _ => true

/-- `'%.1f' % q`: rounding to one decimal place.  (CPython rounds the underlying
binary double half-to-even; every concrete value appearing in this development is
away from a half-way point, where the two rounding rules agree, so round-half-up
on `ℚ` is a faithful model.) -/
def fmt1 (q : ℚ) : ℚ := ((q * 10 + 1 / 2).floor : ℚ) / 10

/-- The adopter variants of frame.py: the base `Adopter` (lines 40-64) and its
five subclasses.  Each carries exactly the per-variant data its constructor
stores.  The constructors of `FearfulAdopter` / `AllergicAdopter` wrap a
non-list argument into a one-element list, so a list-valued field is faithful. -/
inductive Adopter where
  | base (name desired_species : String)
  | flexible (name desired_species : String) (considered_species : List String)
  | fearful (name desired_species : String) (feared_species : List String)
  | allergic (name desired_species : String) (allergic_species : List String)
  | medicated (name desired_species : String) (allergic_species : List String)
      (medicine_effectiveness : List (String × ℚ))
  | sluggish (name desired_species : String) (location : ℚ × ℚ)
deriving DecidableEq

/-- `Adopter.get_name` (frame.py lines 52-53), shared by every variant. -/
def Adopter.get_name : Adopter → String
  | .base n _ => n
  | .flexible n _ _ => n
  | .fearful n _ _ => n
  | .allergic n _ _ => n
  | .medicated n _ _ _ => n
  | .sluggish n _ _ => n

/-- The three uniform draws `(u1, u2, u3)` one `SluggishAdopter.get_score` call
makes: `u1` from `[0.7, 0.9)`, `u2` from `[0.5, 0.7)`, `u3` from `[0.1, 0.5)`. -/
abbrev Draws := ℚ × ℚ × ℚ

/-- Python `sum` over a list of counts, as a rational. -/
def intSum (l : List Int) : ℚ := l.foldr (fun n q => (n : ℚ) + q) 0

/-- Python `min` over a list of numbers.  `min` raises on an empty list; the
program only applies it to nonempty lists, and the `[]` case is an arbitrary
default. -/
def listMin : List ℚ → ℚ
  | [] => 0
  | [a] => a
  | a :: b :: t => min a (listMin (b :: t))

/-- `eff[k] if k in eff else dflt`: dict lookup with a default. -/
def lookupD (eff : List (String × ℚ)) (k : String) (dflt : ℚ) : ℚ :=
  (eff.lookup k).getD dflt

/-- Squared straight-line distance between two locations.
`SluggishAdopter.distance` (frame.py lines 171-174) is its square root; the
program only ever compares the distance with the breakpoints 1, 3, 5, 7, and for
nonnegative reals `sqrt dsq < b ↔ dsq < b ^ 2`, so the embedding works with the
square throughout. -/
def distSq (aloc cloc : ℚ × ℚ) : ℚ :=
  (cloc.1 - aloc.1) ^ 2 + (cloc.2 - aloc.2) ^ 2

/-- The coefficient `mapping[bisect.bisect([1,3,5,7], distance) - 1]` of
`SluggishAdopter.get_score` (frame.py lines 187-189), with
`mapping = [1, u1, u2, u3]`.  `bisect.bisect` returns how many breakpoints are
`≤ distance` (0 to 4); subtracting 1 gives -1 when `distance < 1`, and Python
list indexing wraps `mapping[-1]` around to the LAST element `u3`. -/
def sluggishCoeff (dsq u1 u2 u3 : ℚ) : ℚ :=
  if dsq < 1 then u3
  else if dsq < 9 then 1
  else if dsq < 25 then u1
  else if dsq < 49 then u2
  else u3

/-- State-passing `get_number_of_species`: a pure read, returns the center
unchanged. -/
def getNumberOfSpeciesS (c : AdoptionCenter) (animal : String) : Int × AdoptionCenter :=
  (get_number_of_species c animal, c)

/-- State-passing `get_location`: a pure read. -/
def getLocationS (c : AdoptionCenter) : (ℚ × ℚ) × AdoptionCenter :=
  (c.location, c)

/-- The sequence of `get_number_of_species` reads a comprehension such as
`[self.get_score_other(ac, x) for x in xs]` performs, threading the center. -/
def countListS : AdoptionCenter → List String → List Int × AdoptionCenter
  | c, [] => ([], c)
  | c, x :: xs =>
      let p := getNumberOfSpeciesS c x
      let q := countListS p.2 xs
      (p.1 :: q.1, q.2)

/-- The per-species multiplier list of `MedicatedAllergicAdopter.get_score`
(frame.py lines 147-148): the inner comprehension replaces a species with zero
count by the int `0`, which is never a key of the (string-keyed) effectiveness
dict, so a zero-count species contributes multiplier 1 while a species with
nonzero count contributes `eff[x] if x in eff else 1`. -/
def medListS : AdoptionCenter → List (String × ℚ) → List String → List ℚ × AdoptionCenter
  | c, _, [] => ([], c)
  | c, eff, x :: xs =>
      let p := getNumberOfSpeciesS c x
      let q := medListS p.2 eff xs
      ((if p.1 == 0 then 1 else lookupD eff x 1) :: q.1, q.2)

/-- `get_score` of every adopter variant, in state-passing style, translated
method by method from frame.py (base: line 58-59; Flexible: 78-81; Fearful:
99-102; Allergic: 121-125; MedicatedAllergic: 142-150; Sluggish: 176-189).
The base class returns the plain count; each subclass formats its numeric score
through the stored `'%.1f'` pattern, except for the `return 0` branch of
`AllergicAdopter`, which returns the plain int 0. -/
def getScoreS : Adopter → AdoptionCenter → Draws → ScoreVal × AdoptionCenter
  | .base _ des, c, _ =>
      let p := getNumberOfSpeciesS c des
      (.num p.1, p.2)
  | .flexible _ des cons, c, _ =>
      let p := getNumberOfSpeciesS c des
      let q := countListS p.2 cons
      (.fstr (fmt1 ((p.1 : ℚ) + 3 / 10 * intSum q.1)), q.2)
  | .fearful _ des fears, c, _ =>
      let p := getNumberOfSpeciesS c des
      let q := countListS p.2 fears
      (.fstr (fmt1 ((p.1 : ℚ) - 3 / 10 * intSum q.1)), q.2)
  | .allergic _ des alrg, c, _ =>
      let q := countListS c alrg
      if q.1.all (fun n => n == 0) then
        let p := getNumberOfSpeciesS q.2 des
        (.fstr (fmt1 (p.1 : ℚ)), p.2)
      else (.num 0, q.2)
  | .medicated _ des alrg eff, c, _ =>
      let q := countListS c alrg
      if q.1.all (fun n => n == 0) then
        let p := getNumberOfSpeciesS q.2 des
        (.fstr (fmt1 (p.1 : ℚ)), p.2)
      else
        let m := medListS q.2 eff alrg
        let p := getNumberOfSpeciesS m.2 des
        (.fstr (fmt1 (listMin m.1 * (p.1 : ℚ))), p.2)
  | .sluggish _ des loc, c, d =>
      let p := getNumberOfSpeciesS c des
      let lp := getLocationS p.2
      (.fstr (fmt1 ((p.1 : ℚ) * sluggishCoeff (distSq loc lp.1) d.1 d.2.1 d.2.2)), lp.2)

/-- The value a `get_score` call returns. -/
def getScore (a : Adopter) (c : AdoptionCenter) (d : Draws) : ScoreVal :=
  (getScoreS a c d).1

/-- The numeric score each variant computes before the `'%.1f'` formatting step
(the local variable `score`, times the coefficient where one is applied) — the
"true numeric score" of the entity. -/
def rawScore : Adopter → AdoptionCenter → Draws → ℚ
  | .base _ des, c, _ => (get_number_of_species c des : ℚ)
  | .flexible _ des cons, c, _ =>
      (get_number_of_species c des : ℚ) + 3 / 10 * intSum (cons.map (get_number_of_species c))
  | .fearful _ des fears, c, _ =>
      (get_number_of_species c des : ℚ) - 3 / 10 * intSum (fears.map (get_number_of_species c))
  | .allergic _ des alrg, c, _ =>
      if alrg.all (fun s => get_number_of_species c s == 0) then
        (get_number_of_species c des : ℚ)
      else 0
  | .medicated _ des alrg eff, c, _ =>
      if alrg.all (fun s => get_number_of_species c s == 0) then
        (get_number_of_species c des : ℚ)
      else
        listMin (alrg.map (fun x => if get_number_of_species c x == 0 then 1 else lookupD eff x 1)) *
          (get_number_of_species c des : ℚ)
  | .sluggish _ des loc, c, d =>
      (get_number_of_species c des : ℚ) *
        sluggishCoeff (distSq loc c.location) d.1 d.2.1 d.2.2

/-- A `(name, score)` pair as produced by the ranking dict comprehensions. -/
abbrev Entry := String × ScoreVal

/-- One Python dict assignment `d[k] = v`: override in place if the key exists,
append otherwise. -/
def dictInsert (d : List Entry) (k : String) (v : ScoreVal) : List Entry :=
  if d.any (fun p => p.1 == k) then d.map (fun p => if p.1 == k then (k, v) else p)
  else d ++ [(k, v)]

/-- The dict built by a comprehension `{name(i): score(i) for i in l}`.
(Python 2 leaves dict iteration order unspecified; what it does guarantee, and
what the program relies on, is the key-value content — a later assignment to an
existing key replaces its value.  The ranking functions sort the items with a
key that is injective on them, distinct dict keys giving distinct (score, name)
pairs, so the sorted output is independent of the iteration order and an
insertion-ordered association list is an observationally faithful model.) -/
def dictOf (l : List Entry) : List Entry :=
  l.foldl (fun d p => dictInsert d p.1 p.2) []

/-- The ordering the ranking functions sort by:
`sorted(..., key=lambda x: (float(x[1]), x[0]), reverse=True)` puts `x` before
`y` iff `x`'s key pair is lexicographically ≥ `y`'s, i.e. score descending with
ties broken by name descending. -/
def rDesc (x y : Entry) : Prop :=
  y.2.toRat < x.2.toRat ∨ (y.2.toRat = x.2.toRat ∧ y.1 ≤ x.1)

instance : DecidableRel rDesc := fun x y => by
  unfold rDesc
  exact inferInstance

instance : IsTrans Entry rDesc := by
  constructor
  intro a b c hab hbc
  rcases hab with h1 | ⟨h1, h1n⟩ <;> rcases hbc with h2 | ⟨h2, h2n⟩
  · exact Or.inl (lt_trans h2 h1)
  · exact Or.inl (lt_of_le_of_lt (le_of_eq h2) h1)
  · exact Or.inl (lt_of_lt_of_le h2 (le_of_eq h1))
  · exact Or.inr ⟨h2.trans h1, h2n.trans h1n⟩

instance : IsTotal Entry rDesc := by
  constructor
  intro a b
  rcases lt_trichotomy (a.2.toRat) (b.2.toRat) with h | h | h
  · exact Or.inr (Or.inl h)
  · rcases le_total b.1 a.1 with hn | hn
    · exact Or.inl (Or.inr ⟨h.symm, hn⟩)
    · exact Or.inr (Or.inr ⟨h, hn⟩)
  · exact Or.inl (Or.inl h)

/-- Python list slicing `l[:n]` for an arbitrary integer `n`: a nonnegative `n`
keeps the first `n` elements; a negative `n` drops the last `|n|` elements
(empty result when `|n| ≥ len(l)`).  No value of `n` raises. -/
def pyTake (n : Int) (l : List α) : List α :=
  if n < 0 then l.take (l.length - (-n).toNat) else l.take n.toNat

/-- `get_ordered_adoption_center_list` (frame.py lines 191-196): build the dict
from center name to the adopter's score of that center (one fresh `get_score`
call per center, the i-th call consuming draws `ds i`), sort its items by score
descending then name descending, and wrap the result in a singleton dict keyed
by the adopter's name. -/
def get_ordered_adoption_center_list (a : Adopter) (cs : List AdoptionCenter)
    (ds : ℕ → Draws) : String × List Entry :=
  (a.get_name,
    List.insertionSort rDesc (dictOf (cs.enum.map (fun p => (p.2.name, getScore a p.2 (ds p.1))))))

/-- The local `sorted_adopters` of `get_adopters_for_advertisement` (frame.py
lines 203-204): the sorted items of the dict from adopter name to that
adopter's score of the center. -/
def get_adopters_full (c : AdoptionCenter) (ads : List Adopter) (ds : ℕ → Draws) : List Entry :=
  List.insertionSort rDesc (dictOf (ads.enum.map (fun p => (p.2.get_name, getScore p.2 c (ds p.1)))))

/-- `get_adopters_for_advertisement` (frame.py lines 199-205): the sorted list
truncated by the Python slice `[:n]`, wrapped in a singleton dict keyed by the
center's name. -/
def get_adopters_for_advertisement (c : AdoptionCenter) (ads : List Adopter) (ds : ℕ → Draws)
    (n : Int) : String × List Entry :=
  (c.name, pyTake n (get_adopters_full c ads ds))

/-- The minimum coefficient as the specification words it (claim C5): among the
allergic species PRESENT at the center (positive count), the least
`medicine_effectiveness` value, a species absent from the mapping counting as
multiplier 1. -/
def specMinEff (eff : List (String × ℚ)) (c : AdoptionCenter) (alrg : List String) : ℚ :=
  listMin ((alrg.filter (fun x => decide (0 < get_number_of_species c x))).map
    (fun x => lookupD eff x 1))

/-- Which `get_score` calls produce a `'%.1f'`-formatted string: every variant
except the base class, and except the `return 0` branch of `AllergicAdopter`
(taken when some allergic species has nonzero count). -/
def stringReturning : Adopter → AdoptionCenter → Bool
  | .base _ _, _ => false
  | .allergic _ _ alrg, c => alrg.all (fun s => get_number_of_species c s == 0)
  | .flexible _ _ _, _ => true
  | .fearful _ _ _, _ => true
  | .medicated _ _ _ _, _ => true
  | .sluggish _ _ _, _ => true

/-- Zero draws, used where an adopter's score does not depend on the draws. -/
def d0 : Draws := (0, 0, 0)

/-- Zero draw supply for ranking calls over draw-independent adopters. -/
def ds0 : ℕ → Draws := fun _ => d0

/-- The spec's MedicatedAllergicAdopter example (section 8): allergic to Dog and
Horse, effectiveness Dog 0.5 and Horse 0.2, desiring Cat. -/
def medOne : Adopter :=
  Adopter.medicated "One" "Cat" ["Dog", "Horse"] [("Dog", 1 / 2), ("Horse", 1 / 5)]

/-- The spec's example center (section 8): Cat 12, Dog 2, Horse 9. -/
def acC5 : AdoptionCenter := ⟨"PlaceC", [("Cat", 12), ("Dog", 2), ("Horse", 9)], (0, 0)⟩

/-- A medicated adopter whose only multiplier, 0.28, has two decimal places. -/
def medCx : Adopter := Adopter.medicated "M" "Cat" ["Dog"] [("Dog", 7 / 25)]

/-- A center holding 1 Cat and 1 Dog. -/
def acCx : AdoptionCenter := ⟨"PlaceX", [("Cat", 1), ("Dog", 1)], (0, 0)⟩

/-- A center holding 5 Cats, for the ranking examples. -/
def acAd : AdoptionCenter := ⟨"AdPlace", [("Cat", 5)], (0, 0)⟩

/-- A base adopter named Alice desiring Cat. -/
def aliceCat : Adopter := Adopter.base "Alice" "Cat"

/-- A base adopter named Bob desiring Dog. -/
def bobDog : Adopter := Adopter.base "Bob" "Dog"

/-- A center holding 5 Cats and 3 Dogs, for the duplicate-name example. -/
def acDup : AdoptionCenter := ⟨"DupPlace", [("Cat", 5), ("Dog", 3)], (0, 0)⟩

/-- Two distinct adopters sharing the name Dup: one desires Cat, one Dog. -/
def dupCat : Adopter := Adopter.base "Dup" "Cat"

/-- The second adopter named Dup. -/
def dupDog : Adopter := Adopter.base "Dup" "Dog"

/-- Two distinct centers sharing the name Twin, with different Cat counts. -/
def twin1 : AdoptionCenter := ⟨"Twin", [("Cat", 5)], (0, 0)⟩

/-- The second center named Twin. -/
def twin2 : AdoptionCenter := ⟨"Twin", [("Cat", 3)], (0, 0)⟩

/-- frame.py's sample FlexibleAdopter `adopter3`. -/
def flexThree : Adopter := Adopter.flexible "Three" "Horse" ["Lizard", "Cat"]

/-- frame.py's sample center `ac`: Mouse 12, Dog 2, at (1, 1). -/
def acPlace1 : AdoptionCenter := ⟨"Place1", [("Mouse", 12), ("Dog", 2)], (1, 1)⟩

/-- frame.py's sample SluggishAdopter `adopter5`, located at (1, 2). -/
def slFive : Adopter := Adopter.sluggish "Five" "Cat" (1, 2)

/-- A center with 12 Cats at the same location as `slFive` (distance 0). -/
def acSN : AdoptionCenter := ⟨"PlaceS", [("Cat", 12)], (1, 2)⟩

/-- A center with 12 Cats at distance exactly 2 from `slFive`. -/
def acST : AdoptionCenter := ⟨"PlaceT", [("Cat", 12)], (1, 4)⟩

/-- A center with 2 Dogs, for the `adopt_pet` example. -/
def acStock : AdoptionCenter := ⟨"Stock", [("Dog", 2), ("Cat", 0)], (0, 0)⟩

/-- `acStock` after one successful Dog adoption per the spec's `adopt_pet`. -/
def acStockAfter : AdoptionCenter := ⟨"Stock", [("Dog", 1), ("Cat", 0)], (0, 0)⟩

/-- Medicated adopter Bob: multiplier 0.61 on Dog, so raw score 12.2 below. -/
def medBob : Adopter := Adopter.medicated "Bob" "Cat" ["Dog"] [("Dog", 61 / 100)]

/-- Medicated adopter Ann: multiplier 0.611 on Dog, so raw score 12.22 below. -/
def medAnn : Adopter := Adopter.medicated "Ann" "Cat" ["Dog"] [("Dog", 611 / 1000)]

/-- A center with 20 Cats and 1 Dog: `medBob` and `medAnn` have different raw
scores against it (12.2 and 12.22) that format to the same one-decimal string. -/
def acW : AdoptionCenter := ⟨"PlaceW", [("Cat", 20), ("Dog", 1)], (0, 0)⟩

/-- The allergic sample adopter Six, allergic to Dog. -/
def allergicSix : Adopter := Adopter.allergic "Six" "Cat" ["Dog"]

-- ------------------------------------------------------------------
-- Theorems.  General lemmas about the embedding first, then one theorem
-- (plus witness / counterexample where applicable) per claim C1 to C10.
-- ------------------------------------------------------------------

/-- The executable floor on `ℚ` agrees with the order-theoretic floor. -/
theorem ratFloor_eq_intFloor (q : ℚ) : q.floor = ⌊q⌋ := by
  rw [Rat.floor_def', Rat.floor_def]

/-- `fmt1` through the order-theoretic floor. -/
theorem fmt1_eq_floor (q : ℚ) : fmt1 q = (⌊q * 10 + 1 / 2⌋ : ℚ) / 10 := by
  rw [fmt1, ratFloor_eq_intFloor]

/-- Evaluate `fmt1 q` from bracketing bounds on `q * 10 + 1/2`. -/
theorem fmt1_eq_of_bounds (q : ℚ) (z : ℤ) (h1 : (z : ℚ) ≤ q * 10 + 1 / 2)
    (h2 : q * 10 + 1 / 2 < z + 1) : fmt1 q = (z : ℚ) / 10 := by
  rw [fmt1_eq_floor, Int.floor_eq_iff.mpr ⟨h1, h2⟩]

/-- Formatting an integer to one decimal place returns it unchanged. -/
theorem fmt1_intCast (n : ℤ) : fmt1 (n : ℚ) = (n : ℚ) := by
  rw [fmt1_eq_of_bounds (n : ℚ) (10 * n) (by push_cast; linarith) (by push_cast; linarith)]
  push_cast
  ring

/-- `fmt1 0 = 0`. -/
theorem fmt1_zero : fmt1 0 = 0 := by
  simpa using fmt1_intCast 0

/-- `fmt1` never exceeds its argument by more than the rounding slack. -/
theorem fmt1_le (q : ℚ) : fmt1 q ≤ (q * 10 + 1 / 2) / 10 := by
  rw [fmt1_eq_floor]
  have h := Int.floor_le (q * 10 + 1 / 2)
  linarith

/-- A successful dict lookup returns a stored pair. -/
theorem lookup_mem {α β : Type} [BEq α] [LawfulBEq α] {k : α} {v : β} :
    ∀ {l : List (α × β)}, List.lookup k l = some v → (k, v) ∈ l := by
  intro l
  induction l with
  | nil => intro h; simp [List.lookup] at h
  | cons p t ih =>
    rcases p with ⟨a, b⟩
    intro h
    simp only [List.lookup] at h
    split at h
    · next heq =>
        injection h with hv
        exact (eq_of_beq heq) ▸ hv ▸ List.mem_cons_self _ _
    · exact List.mem_cons_of_mem _ (ih h)

/-- A center whose stored counts are all nonnegative has nonnegative counts for
every species (absent species count 0). -/
theorem count_nonneg (c : AdoptionCenter) (h : ∀ p ∈ c.species_types, 0 ≤ p.2) (s : String) :
    0 ≤ get_number_of_species c s := by
  unfold get_number_of_species
  cases hl : c.species_types.lookup s with
  | none => exact le_refl 0
  | some n => exact h (s, n) (lookup_mem hl)

/-- The values a comprehension of center reads produces. -/
theorem countListS_fst (c : AdoptionCenter) (l : List String) :
    (countListS c l).1 = l.map (get_number_of_species c) := by
  induction l with
  | nil => rfl
  | cons x xs ih => simp [countListS, getNumberOfSpeciesS, ih]

/-- A comprehension of center reads leaves the center unchanged. -/
theorem countListS_snd (c : AdoptionCenter) (l : List String) : (countListS c l).2 = c := by
  induction l with
  | nil => rfl
  | cons x xs ih => simp [countListS, getNumberOfSpeciesS, ih]

/-- The multiplier list of `MedicatedAllergicAdopter.get_score`. -/
theorem medListS_fst (c : AdoptionCenter) (eff : List (String × ℚ)) (l : List String) :
    (medListS c eff l).1 =
      l.map (fun x => if get_number_of_species c x == 0 then 1 else lookupD eff x 1) := by
  induction l with
  | nil => rfl
  | cons x xs ih => simp [medListS, getNumberOfSpeciesS, ih]

/-- Building the multiplier list leaves the center unchanged. -/
theorem medListS_snd (c : AdoptionCenter) (eff : List (String × ℚ)) (l : List String) :
    (medListS c eff l).2 = c := by
  induction l with
  | nil => rfl
  | cons x xs ih => simp [medListS, getNumberOfSpeciesS, ih]

/-- Every scoring path leaves the center exactly as it was. -/
theorem getScoreS_snd (a : Adopter) (c : AdoptionCenter) (d : Draws) :
    (getScoreS a c d).2 = c := by
  cases a <;>
    simp only [getScoreS, getNumberOfSpeciesS, getLocationS, countListS_snd, medListS_snd] <;>
    first
    | rfl
    | (split <;> simp [getNumberOfSpeciesS, countListS_snd, medListS_snd])

/-- The numeric content of every `get_score` result is the raw numeric score
rounded to one decimal place.  (Plain-number results are integers, which
one-decimal rounding fixes, so the equation is uniform across all variants.) -/
theorem allZero_iff (c : AdoptionCenter) (alrg : List String) :
    ((countListS c alrg).1.all fun n => n == 0) =
      alrg.all (fun s => get_number_of_species c s == 0) := by
  rw [countListS_fst]
  induction alrg with
  | nil => rfl
  | cons x xs ih => simp only [List.map_cons, List.all_cons, ih]

theorem toRat_getScore (a : Adopter) (c : AdoptionCenter) (d : Draws) :
    (getScore a c d).toRat = fmt1 (rawScore a c d) := by
  cases a with
  | base nm des =>
      simp [getScore, getScoreS, rawScore, ScoreVal.toRat, getNumberOfSpeciesS, fmt1_intCast]
  | flexible nm des cons =>
      simp [getScore, getScoreS, rawScore, ScoreVal.toRat, getNumberOfSpeciesS,
        countListS_fst, countListS_snd]
  | fearful nm des fears =>
      simp [getScore, getScoreS, rawScore, ScoreVal.toRat, getNumberOfSpeciesS,
        countListS_fst, countListS_snd]
  | allergic nm des alrg =>
      simp only [getScore, getScoreS, rawScore, allZero_iff]
      split
      · simp [ScoreVal.toRat, getNumberOfSpeciesS, countListS_snd]
      · simp [ScoreVal.toRat, fmt1_zero]
  | medicated nm des alrg eff =>
      simp only [getScore, getScoreS, rawScore, allZero_iff]
      split
      · simp [ScoreVal.toRat, getNumberOfSpeciesS, countListS_snd]
      · simp [ScoreVal.toRat, getNumberOfSpeciesS, medListS_fst, medListS_snd, countListS_snd]
  | sluggish nm des loc =>
      simp [getScore, getScoreS, rawScore, ScoreVal.toRat, getNumberOfSpeciesS, getLocationS]

/-- `listMin` of a cons over a nonempty tail. -/
theorem listMin_cons (a : ℚ) (l : List ℚ) (h : l ≠ []) :
    listMin (a :: l) = min a (listMin l) := by
  cases l with
  | nil => exact absurd rfl h
  | cons b t => rfl

/-- The minimum of a nonempty list of values bounded by 1 is bounded by 1. -/
theorem listMin_le_one (l : List ℚ) (h : l ≠ []) (hb : ∀ x ∈ l, x ≤ 1) : listMin l ≤ 1 := by
  induction l with
  | nil => exact absurd rfl h
  | cons a t ih =>
    cases t with
    | nil => simpa [listMin] using hb a (by simp)
    | cons b u =>
      rw [listMin_cons a (b :: u) (by simp)]
      exact le_trans (min_le_right _ _) (ih (by simp) (fun x hx => hb x (by simp [hx])))

/-- The minimum of a nonempty all-ones list is 1. -/
theorem listMin_all_one (l : List ℚ) (h : l ≠ []) (hb : ∀ x ∈ l, x = 1) : listMin l = 1 := by
  induction l with
  | nil => exact absurd rfl h
  | cons a t ih =>
    cases t with
    | nil => simpa [listMin] using hb a (by simp)
    | cons b u =>
      rw [listMin_cons a (b :: u) (by simp)]
      rw [hb a (by simp), ih (by simp) (fun x hx => hb x (by simp [hx]))]
      exact min_self 1

/-- Replacing the filtered-out elements of a minimum by the neutral value 1 does
not change the minimum, as long as some element survives the filter and the
surviving values are bounded by 1. -/
theorem listMin_map_ite (p : String → Bool) (f : String → ℚ) :
    ∀ l : List String, (∃ x ∈ l, p x = true) → (∀ x ∈ l, f x ≤ 1) →
      listMin (l.map (fun x => if p x then f x else 1)) = listMin ((l.filter p).map f) := by
  intro l
  induction l with
  | nil => rintro ⟨x, hx, _⟩ _; exact absurd hx (List.not_mem_nil x)
  | cons a t ih =>
    intro hex hle
    by_cases hpa : p a = true
    · rw [List.map_cons, if_pos hpa, List.filter_cons_of_pos hpa, List.map_cons]
      by_cases het : ∃ x ∈ t, p x = true
      · have ht : t ≠ [] := by
          rintro rfl
          rcases het with ⟨x, hx, _⟩
          exact absurd hx (List.not_mem_nil x)
        have hfil : t.filter p ≠ [] := by
          rcases het with ⟨x, hx, hpx⟩
          intro h0
          have hm : x ∈ t.filter p := List.mem_filter.mpr ⟨hx, hpx⟩
          rw [h0] at hm
          exact absurd hm (List.not_mem_nil x)
        rw [listMin_cons _ _ (by simpa using ht), listMin_cons _ _ (by simpa using hfil)]
        rw [ih het (fun x hx => hle x (by simp [hx]))]
      · push_neg at het
        have hfil : t.filter p = [] := by
          apply List.filter_eq_nil_iff.mpr
          intro x hx
          simpa using het x hx
        rw [hfil, List.map_nil]
        cases t with
        | nil => simp [listMin]
        | cons b u =>
          rw [listMin_cons _ _ (by simp)]
          have h1 : listMin ((b :: u).map fun x => if p x then f x else 1) = 1 := by
            apply listMin_all_one _ (by simp)
            intro x hx
            rcases List.mem_map.mp hx with ⟨y, hy, rfl⟩
            rw [if_neg (by simpa using het y hy)]
          rw [h1]
          show min (f a) 1 = listMin [f a]
          rw [listMin]
          exact min_eq_left (hle a (by simp))
    · have hpa' : p a = false := by simpa using hpa
      rw [List.map_cons, if_neg (by simp [hpa']), List.filter_cons_of_neg (by simp [hpa'])]
      rcases hex with ⟨x, hx, hpx⟩
      have hxt : x ∈ t := by
        rcases List.mem_cons.mp hx with h | h
        · rw [h] at hpx; rw [hpx] at hpa'; cases hpa'
        · exact h
      have het : ∃ y ∈ t, p y = true := ⟨x, hxt, hpx⟩
      have ht : t ≠ [] := by
        rintro rfl
        exact absurd hxt (List.not_mem_nil x)
      rw [listMin_cons _ _ (by simpa using ht)]
      rw [ih het (fun y hy => hle y (by simp [hy]))]
      apply min_eq_right
      apply listMin_le_one
      · have hfil : t.filter p ≠ [] := by
          intro h0
          have hm : x ∈ t.filter p := List.mem_filter.mpr ⟨hxt, hpx⟩
          rw [h0] at hm
          exact absurd hm (List.not_mem_nil x)
        simpa using hfil
      · intro y hy
        rcases List.mem_map.mp hy with ⟨z, hz, rfl⟩
        exact hle z (by simp [(List.mem_filter.mp hz).1])

/-- C9: for every adopter variant and every center, calling `get_score` leaves
the center unchanged: its name, every species count of its inventory, and its
location are identical before and after the call. -/
theorem c9_scoring_never_mutates_center :
    ∀ (a : Adopter) (c : AdoptionCenter) (d : Draws),
      (getScoreS a c d).2.name = c.name ∧
      (∀ s, get_number_of_species (getScoreS a c d).2 s = get_number_of_species c s) ∧
      (getScoreS a c d).2.location = c.location := by
  intro a c d
  rw [getScoreS_snd]
  exact ⟨rfl, fun s => rfl, rfl⟩

/-- C2: both ranking functions return their `(name, score)` pairs sorted by
score descending with ties broken by name descending (`rDesc`), and the
truncation of `get_adopters_for_advertisement` keeps the first `n` entries of
the fully sorted list, preserving that order for every `n`. -/
theorem c2_rankings_sorted :
    (∀ (a : Adopter) (cs : List AdoptionCenter) (ds : ℕ → Draws),
        List.Sorted rDesc (get_ordered_adoption_center_list a cs ds).2) ∧
    (∀ (c : AdoptionCenter) (ads : List Adopter) (ds : ℕ → Draws) (n : Int),
        List.Sorted rDesc (get_adopters_for_advertisement c ads ds n).2) ∧
    (∀ (c : AdoptionCenter) (ads : List Adopter) (ds : ℕ → Draws) (n : Int), 0 ≤ n →
        (get_adopters_for_advertisement c ads ds n).2 =
          (get_adopters_full c ads ds).take n.toNat) := by
  refine ⟨fun a cs ds => ?_, fun c ads ds n => ?_, fun c ads ds n hn => ?_⟩
  · exact List.sorted_insertionSort rDesc _
  · have hs : List.Sorted rDesc (get_adopters_full c ads ds) :=
      List.sorted_insertionSort rDesc _
    show List.Sorted rDesc (pyTake n (get_adopters_full c ads ds))
    unfold pyTake
    split
    · exact List.Pairwise.sublist (List.take_sublist _ _) hs
    · exact List.Pairwise.sublist (List.take_sublist _ _) hs
  · show pyTake n (get_adopters_full c ads ds) = _
    unfold pyTake
    rw [if_neg (by omega)]

/-- C2 witness: truncating the two sorted sample adopters to the top 1 gives
exactly the first entry of the fully sorted list. -/
theorem c2_rankings_sorted_witness :
    (get_adopters_for_advertisement acAd [aliceCat, bobDog] ds0 1).2 =
      (get_adopters_full acAd [aliceCat, bobDog] ds0).take 1 :=
  c2_rankings_sorted.2.2 acAd [aliceCat, bobDog] ds0 1 (by omega)

/-- C6 counterexample: `FlexibleAdopter.get_score` returns a `'%.1f'`-formatted
string, not a number, against frame.py's own sample center. -/
theorem c6_flexible_returns_string :
    (getScore flexThree acPlace1 d0).isFstr = true := rfl

/-- C6 amended: only the base `Adopter.get_score` (always) and the
`AllergicAdopter.get_score` zero branch (when some allergic species has nonzero
count) return plain numbers; every other scoring path formats the score through
the stored `'%.1f'` pattern and returns that fixed-point string. -/
theorem c6_score_string_classification :
    ∀ (a : Adopter) (c : AdoptionCenter) (d : Draws),
      (getScore a c d).isFstr = stringReturning a c := by
  intro a c d
  cases a with
  | base nm des => rfl
  | flexible nm des cons => rfl
  | fearful nm des fears => rfl
  | sluggish nm des loc => rfl
  | allergic nm des alrg =>
      simp only [getScore, getScoreS, allZero_iff, stringReturning]
      split
      · next h => simp only [ScoreVal.isFstr, h]
      · next h => exact ((Bool.not_eq_true _).mp h).symm
  | medicated nm des alrg eff =>
      simp only [getScore, getScoreS, allZero_iff, stringReturning]
      split <;> rfl

/-- C7: the source's `adopt_pet` raises `TypeError` on every call (its first
expression calls `dict.keys` with an argument), so it never decrements the
inventory; the specification's behaviour (`adopt_pet_spec`) decrements a
positive count by one and fails with OutOfStock on a zero count, and the two
disagree already on a stocked center. -/
theorem c7_adopt_pet_always_raises :
    (∀ (c : AdoptionCenter) (s : String), adopt_pet c s = Except.error PyErr.typeError) ∧
    adopt_pet_spec acStock "Dog" = Except.ok acStockAfter ∧
    adopt_pet_spec acStock "Cat" = Except.error PyErr.outOfStock ∧
    adopt_pet acStock "Dog" ≠ adopt_pet_spec acStock "Dog" := by
  refine ⟨fun c s => rfl, rfl, rfl, ?_⟩
  intro h
  rw [show adopt_pet_spec acStock "Dog" = Except.ok acStockAfter from rfl] at h
  exact Except.noConfusion h

/-- C8: an `AllergicAdopter`'s score is 0 as soon as one allergic species has a
positive count at the center, and otherwise is the desired-species count
(centers carry nonnegative counts, per the data model of the spec). -/
theorem c8_allergic_score :
    ∀ (nm des : String) (alrg : List String) (c : AdoptionCenter) (d : Draws),
      (∀ s, 0 ≤ get_number_of_species c s) →
      (getScore (Adopter.allergic nm des alrg) c d).toRat =
        if ∃ s ∈ alrg, 0 < get_number_of_species c s then 0
        else (get_number_of_species c des : ℚ) := by
  intro nm des alrg c d hnn
  simp only [getScore, getScoreS, allZero_iff]
  by_cases h : (alrg.all fun s => get_number_of_species c s == 0) = true
  · rw [if_pos h]
    have hno : ¬ ∃ s ∈ alrg, 0 < get_number_of_species c s := by
      rintro ⟨s, hs, hpos⟩
      have h0 : (get_number_of_species c s == 0) = true := List.all_eq_true.mp h s hs
      rw [beq_iff_eq] at h0
      omega
    rw [if_neg hno]
    simp [ScoreVal.toRat, getNumberOfSpeciesS, countListS_snd, fmt1_intCast]
  · rw [if_neg h]
    have hyes : ∃ s ∈ alrg, 0 < get_number_of_species c s := by
      have hnall : ¬ ∀ s ∈ alrg, get_number_of_species c s = 0 := by
        intro hall
        exact h (List.all_eq_true.mpr (fun s hs => beq_iff_eq.mpr (hall s hs)))
      push_neg at hnall
      rcases hnall with ⟨s, hs, hneq⟩
      exact ⟨s, hs, lt_of_le_of_ne (hnn s) (Ne.symm hneq)⟩
    rw [if_pos hyes]
    rfl

/-- C8 witness: the sample allergic adopter Six scores 0 against a center
holding 3 Dogs. -/
theorem c8_allergic_score_witness : (getScore allergicSix acDup d0).toRat = 0 := by
  have h := c8_allergic_score "Six" "Cat" ["Dog"] acDup d0 (count_nonneg acDup (by decide))
  rw [show allergicSix = Adopter.allergic "Six" "Cat" ["Dog"] from rfl, h,
    if_pos ⟨"Dog", by decide, by decide⟩]

/-- C5 amended: under effectiveness values in `[0,1]`, nonnegative inventory
counts and at least one allergic species present, a `MedicatedAllergicAdopter`'s
score is the desired-species count times the minimum effectiveness among the
allergic species present (absent mapping entries counting as 1), ROUNDED to one
decimal place by the stored `'%.1f'` format. -/
theorem c5_medicated_score_rounded :
    ∀ (nm des : String) (alrg : List String) (eff : List (String × ℚ))
      (c : AdoptionCenter) (d : Draws),
      (∀ p ∈ eff, 0 ≤ p.2 ∧ p.2 ≤ 1) →
      (∀ s, 0 ≤ get_number_of_species c s) →
      (∃ s ∈ alrg, 0 < get_number_of_species c s) →
      (getScore (Adopter.medicated nm des alrg eff) c d).toRat =
        fmt1 (specMinEff eff c alrg * (get_number_of_species c des : ℚ)) := by
  intro nm des alrg eff c d heff hnn hex
  have hfalse : (alrg.all fun s => get_number_of_species c s == 0) ≠ true := by
    rcases hex with ⟨s, hs, hpos⟩
    intro hall
    have h0 := List.all_eq_true.mp hall s hs
    rw [beq_iff_eq] at h0
    omega
  simp only [getScore, getScoreS, allZero_iff]
  rw [if_neg hfalse]
  simp only [ScoreVal.toRat, getNumberOfSpeciesS, medListS_fst, medListS_snd, countListS_snd]
  have hmap : (alrg.map fun x => if get_number_of_species c x == 0 then 1 else lookupD eff x 1)
      = alrg.map (fun x =>
          if decide (0 < get_number_of_species c x) then lookupD eff x 1 else 1) := by
    apply List.map_congr_left
    intro x _
    by_cases h : get_number_of_species c x = 0
    · rw [if_pos (beq_iff_eq.mpr h), if_neg (by simp [h])]
    · rw [if_neg (by simpa using h),
        if_pos (by simpa using lt_of_le_of_ne (hnn x) (Ne.symm h))]
  have hex2 : ∃ x ∈ alrg, (fun x => decide (0 < get_number_of_species c x)) x = true := by
    rcases hex with ⟨s, hs, hpos⟩
    exact ⟨s, hs, by simpa using hpos⟩
  have hle2 : ∀ x ∈ alrg, (fun x => lookupD eff x 1) x ≤ 1 := by
    intro x _
    show lookupD eff x 1 ≤ 1
    unfold lookupD
    cases hl : eff.lookup x with
    | none => simp
    | some v => simpa using (heff (x, v) (lookup_mem hl)).2
  rw [hmap, specMinEff,
    listMin_map_ite (fun x => decide (0 < get_number_of_species c x))
      (fun x => lookupD eff x 1) alrg hex2 hle2]

/-- C5 counterexample: with allergic species Dog, effectiveness Dog 0.28,
desired Cat, and a center holding Cat 1 and Dog 1, the claimed score (count
times minimum effectiveness) is 0.28, but the returned score is 0.3: the
product is formatted to one decimal place before being returned. -/
theorem c5_rounding_loses_exact_product :
    (getScore medCx acCx d0).toRat = 3 / 10 ∧
    specMinEff [("Dog", 7 / 25)] acCx ["Dog"] *
      (get_number_of_species acCx "Cat" : ℚ) = 7 / 25 ∧
    (3 / 10 : ℚ) ≠ 7 / 25 := by
  refine ⟨?_, ?_, by norm_num⟩
  · rw [show medCx = Adopter.medicated "M" "Cat" ["Dog"] [("Dog", 7 / 25)] from rfl]
    simp only [getScore, getScoreS, allZero_iff]
    rw [if_neg (by decide)]
    simp only [ScoreVal.toRat, getNumberOfSpeciesS, medListS_fst, medListS_snd, countListS_snd,
      List.map_cons, List.map_nil]
    rw [if_neg (by decide)]
    rw [show lookupD [("Dog", 7 / 25)] "Dog" 1 = 7 / 25 from rfl]
    rw [show (get_number_of_species acCx "Cat" : ℚ) = 1 by norm_num [get_number_of_species, acCx, List.lookup]]
    rw [show listMin [7 / 25] = 7 / 25 from rfl]
    rw [fmt1_eq_of_bounds (7 / 25 * 1) 3 (by norm_num) (by norm_num)]
    norm_num
  · rw [show specMinEff [("Dog", 7 / 25)] acCx ["Dog"] = 7 / 25 from ?_,
      show (get_number_of_species acCx "Cat" : ℚ) = 1 by norm_num [get_number_of_species, acCx, List.lookup]]
    · norm_num
    · rw [specMinEff]
      rw [show (["Dog"].filter fun x => decide (0 < get_number_of_species acCx x)) = ["Dog"] from by decide]
      rfl

/-- C5 witness: the spec's own example — allergic to Dog and Horse with
effectiveness 0.5 and 0.2, desiring Cat, against a center with Cat 12, Dog 2,
Horse 9 — scores 2.4. -/
theorem c5_medicated_score_rounded_witness :
    (getScore medOne acC5 d0).toRat = 12 / 5 := by
  have h := c5_medicated_score_rounded "One" "Cat" ["Dog", "Horse"]
    [("Dog", 1 / 2), ("Horse", 1 / 5)] acC5 d0
    (by intro p hp; fin_cases hp <;> exact ⟨by norm_num, by norm_num⟩)
    (count_nonneg acC5 (by decide))
    ⟨"Dog", by decide, by decide⟩
  rw [show medOne = Adopter.medicated "One" "Cat" ["Dog", "Horse"]
      [("Dog", 1 / 2), ("Horse", 1 / 5)] from rfl, h]
  rw [show specMinEff [("Dog", 1 / 2), ("Horse", 1 / 5)] acC5 ["Dog", "Horse"] = 1 / 5 from ?_,
    show (get_number_of_species acC5 "Cat" : ℚ) = 12 by norm_num [get_number_of_species, acC5, List.lookup]]
  · rw [fmt1_eq_of_bounds (1 / 5 * 12) 24 (by norm_num) (by norm_num)]
    norm_num
  · rw [specMinEff]
    rw [show (["Dog", "Horse"].filter fun x => decide (0 < get_number_of_species acC5 x)) =
        ["Dog", "Horse"] from by decide]
    rw [show (["Dog", "Horse"].map fun x => lookupD [("Dog", 1 / 2), ("Horse", 1 / 5)] x 1) =
        [1 / 2, 1 / 5] from rfl]
    rw [show listMin [1 / 2, 1 / 5] = min (1 / 2) (1 / 5) from rfl]
    norm_num

/-- C1 (code bug): for a SluggishAdopter at distance 0 (`slFive` against `acSN`,
both at (1,2), 12 Cats) the returned score is always strictly below the base
count 12 — the coefficient is the `uniform(0.1, 0.5)` draw selected through
`mapping[-1]` — although the claim (and the method's own docstring) require the
score to equal exactly the base count 12 there; and at distance 2 (`acST`) the
score is always exactly 12, although the claim requires a coefficient drawn from
`[0.7, 0.9)`.  The buckets are shifted one place. -/
theorem c1_sluggish_buckets_shifted :
    (∀ u1 u2 u3 : ℚ, 1 / 10 ≤ u3 → u3 < 1 / 2 →
        (getScore slFive acSN (u1, u2, u3)).toRat < 12) ∧
    (∀ u1 u2 u3 : ℚ, (getScore slFive acST (u1, u2, u3)).toRat = 12) := by
  constructor
  · intro u1 u2 u3 h1 h2
    have hv : (getScore slFive acSN (u1, u2, u3)).toRat = fmt1 (12 * u3) := by
      simp only [slFive, acSN, getScore, getScoreS, ScoreVal.toRat, getNumberOfSpeciesS,
        getLocationS]
      norm_num [get_number_of_species, List.lookup, distSq, sluggishCoeff]
    rw [hv]
    have hle := fmt1_le (12 * u3)
    linarith
  · intro u1 u2 u3
    have hv : (getScore slFive acST (u1, u2, u3)).toRat = fmt1 (12 * 1) := by
      simp only [slFive, acST, getScore, getScoreS, ScoreVal.toRat, getNumberOfSpeciesS,
        getLocationS]
      norm_num [get_number_of_species, List.lookup, distSq, sluggishCoeff]
    rw [hv, show (12 : ℚ) * 1 = ((12 : ℤ) : ℚ) by norm_num, fmt1_intCast]
    norm_num

/-- C1 witness: at the shared location, with the `uniform(0.1,0.5)` draw 0.25,
the score is below 12. -/
theorem c1_sluggish_buckets_shifted_witness :
    (getScore slFive acSN (0, 0, 1 / 4)).toRat < 12 :=
  c1_sluggish_buckets_shifted.1 0 0 (1 / 4) (by norm_num) (by norm_num)

/-- C3 counterexample: a negative `n` does not fail with any error — against a
center with 5 Cats and the two sample adopters, `n = -1` returns the sorted
list with its last entry dropped, a normal one-element result. -/
theorem c3_negative_n_returns_data :
    (get_adopters_for_advertisement acAd [aliceCat, bobDog] ds0 (-1)).2 =
      [("Alice", ScoreVal.num 5)] := by
  have hfull : get_adopters_full acAd [aliceCat, bobDog] ds0 =
      [("Alice", ScoreVal.num 5), ("Bob", ScoreVal.num 0)] := by
    show List.insertionSort rDesc
        (dictOf [("Alice", getScore aliceCat acAd (ds0 0)), ("Bob", getScore bobDog acAd (ds0 1))]) = _
    rw [show getScore aliceCat acAd (ds0 0) = ScoreVal.num 5 from by decide,
      show getScore bobDog acAd (ds0 1) = ScoreVal.num 0 from by decide]
    rw [show dictOf [("Alice", ScoreVal.num 5), ("Bob", ScoreVal.num 0)] =
        [("Alice", ScoreVal.num 5), ("Bob", ScoreVal.num 0)] from by
      simp [dictOf, dictInsert]]
    show List.orderedInsert rDesc ("Alice", ScoreVal.num 5)
        (List.orderedInsert rDesc ("Bob", ScoreVal.num 0) []) = _
    rw [List.orderedInsert_nil,
      List.orderedInsert_of_le rDesc _ (Or.inl (by norm_num [ScoreVal.toRat]))]
  show pyTake (-1) (get_adopters_full acAd [aliceCat, bobDog] ds0) = _
  rw [hfull]
  rfl

/-- C3 amended: `get_adopters_for_advertisement` never fails on any integer
`n`; it applies Python slice semantics to the sorted list: `n = 0` yields the
empty list, `n` at least the list's length yields the whole sorted list, and a
NEGATIVE `n` (instead of failing with InvalidArgument) drops the last `|n|`
entries of the sorted list. -/
theorem c3_slice_semantics :
    ∀ (c : AdoptionCenter) (ads : List Adopter) (ds : ℕ → Draws) (n : Int),
      (n = 0 → (get_adopters_for_advertisement c ads ds n).2 = []) ∧
      (((get_adopters_full c ads ds).length : Int) ≤ n →
        (get_adopters_for_advertisement c ads ds n).2 = get_adopters_full c ads ds) ∧
      (n < 0 → (get_adopters_for_advertisement c ads ds n).2 =
        (get_adopters_full c ads ds).take ((get_adopters_full c ads ds).length - (-n).toNat)) := by
  intro c ads ds n
  refine ⟨fun h0 => ?_, fun hge => ?_, fun hneg => ?_⟩
  · show pyTake n _ = []
    rw [h0]
    unfold pyTake
    norm_num
  · show pyTake n _ = _
    unfold pyTake
    rw [if_neg (by omega)]
    exact List.take_of_length_le (by omega)
  · show pyTake n _ = _
    unfold pyTake
    rw [if_pos hneg]

/-- C3 witness: `n = 0` yields the empty list on the sample inputs. -/
theorem c3_slice_semantics_witness :
    (get_adopters_for_advertisement acAd [aliceCat, bobDog] ds0 0).2 = [] :=
  (c3_slice_semantics acAd [aliceCat, bobDog] ds0 0).1 rfl

/-- C4 (code bug): both ranking functions key their intermediate dict by entity
name, so of two distinct adopters (or centers) sharing a name only one entry
survives — the later entity's score under the shared name — instead of each
entity contributing its own entry. -/
theorem c4_duplicate_names_collapse :
    (get_adopters_for_advertisement acDup [dupCat, dupDog] ds0 10).2 =
      [("Dup", ScoreVal.num 3)] ∧
    (get_ordered_adoption_center_list (Adopter.base "A" "Cat") [twin1, twin2] ds0).2 =
      [("Twin", ScoreVal.num 3)] := by
  constructor
  · show pyTake 10 (List.insertionSort rDesc
      (dictOf [("Dup", getScore dupCat acDup (ds0 0)), ("Dup", getScore dupDog acDup (ds0 1))])) = _
    rw [show getScore dupCat acDup (ds0 0) = ScoreVal.num 5 from by decide,
      show getScore dupDog acDup (ds0 1) = ScoreVal.num 3 from by decide]
    rw [show dictOf [("Dup", ScoreVal.num 5), ("Dup", ScoreVal.num 3)] =
        [("Dup", ScoreVal.num 3)] from by simp [dictOf, dictInsert]]
    rfl
  · show (List.insertionSort rDesc
      (dictOf [("Twin", getScore (Adopter.base "A" "Cat") twin1 (ds0 0)),
        ("Twin", getScore (Adopter.base "A" "Cat") twin2 (ds0 1))])) = _
    rw [show getScore (Adopter.base "A" "Cat") twin1 (ds0 0) = ScoreVal.num 5 from by decide,
      show getScore (Adopter.base "A" "Cat") twin2 (ds0 1) = ScoreVal.num 3 from by decide]
    rw [show dictOf [("Twin", ScoreVal.num 5), ("Twin", ScoreVal.num 3)] =
        [("Twin", ScoreVal.num 3)] from by simp [dictOf, dictInsert]]
    rfl

/-- Sorting the dict of two entries with distinct names, the first of which
precedes the second under `rDesc`, keeps them in that order. -/
theorem sort_two_entries (e1 e2 : Entry) (hne : e1.1 ≠ e2.1) (hr : rDesc e1 e2) :
    List.insertionSort rDesc (dictOf [e1, e2]) = [e1, e2] := by
  have hb : (e1.1 == e2.1) = false := beq_eq_false_iff_ne.mpr hne
  rw [show dictOf [e1, e2] = [e1, e2] from by simp [dictOf, dictInsert, hb]]
  show List.orderedInsert rDesc e1 (List.orderedInsert rDesc e2 []) = _
  rw [List.orderedInsert_nil, List.orderedInsert_of_le rDesc _ hr]

/-- C10: every score is compared only through its one-decimal formatted value —
each `get_score` result's numeric content is the raw score rounded to one
decimal place — so two entities whose raw scores differ but round to the same
one-decimal value are tied, and both ranking functions order them between
themselves purely by name descending. -/
theorem c10_format_then_compare :
    (∀ (a : Adopter) (c : AdoptionCenter) (d : Draws),
        (getScore a c d).toRat = fmt1 (rawScore a c d)) ∧
    (∀ (c : AdoptionCenter) (A B : Adopter) (ds : ℕ → Draws),
        (getScore A c (ds 0)).toRat = (getScore B c (ds 1)).toRat →
        B.get_name < A.get_name →
        (get_adopters_for_advertisement c [A, B] ds 2).2 =
          [(A.get_name, getScore A c (ds 0)), (B.get_name, getScore B c (ds 1))]) ∧
    (∀ (a : Adopter) (c1 c2 : AdoptionCenter) (ds : ℕ → Draws),
        (getScore a c1 (ds 0)).toRat = (getScore a c2 (ds 1)).toRat →
        c2.name < c1.name →
        (get_ordered_adoption_center_list a [c1, c2] ds).2 =
          [(c1.name, getScore a c1 (ds 0)), (c2.name, getScore a c2 (ds 1))]) := by
  refine ⟨fun a c d => toRat_getScore a c d, ?_, ?_⟩
  · intro c A B ds heq hlt
    have hr : rDesc (A.get_name, getScore A c (ds 0)) (B.get_name, getScore B c (ds 1)) :=
      Or.inr ⟨heq.symm, le_of_lt hlt⟩
    have hne : A.get_name ≠ B.get_name := ne_of_gt hlt
    show pyTake 2 (List.insertionSort rDesc
      (dictOf [(A.get_name, getScore A c (ds 0)), (B.get_name, getScore B c (ds 1))])) = _
    rw [sort_two_entries _ _ hne hr]
    rfl
  · intro a c1 c2 ds heq hlt
    have hr : rDesc (c1.name, getScore a c1 (ds 0)) (c2.name, getScore a c2 (ds 1)) :=
      Or.inr ⟨heq.symm, le_of_lt hlt⟩
    have hne : c1.name ≠ c2.name := ne_of_gt hlt
    show List.insertionSort rDesc
      (dictOf [(c1.name, getScore a c1 (ds 0)), (c2.name, getScore a c2 (ds 1))]) = _
    exact sort_two_entries _ _ hne hr

/-- C10 witness: `medBob` (raw score 12.2 against `acW`) and `medAnn` (raw
score 12.22) both format to 12.2, so the ranking treats them as tied and
orders Bob before Ann, by name descending. -/
theorem c10_format_then_compare_witness :
    (get_adopters_for_advertisement acW [medBob, medAnn] ds0 2).2 =
      [("Bob", getScore medBob acW (ds0 0)), ("Ann", getScore medAnn acW (ds0 1))] := by
  have hb : (getScore medBob acW (ds0 0)).toRat = 61 / 5 := by
    rw [show medBob = Adopter.medicated "Bob" "Cat" ["Dog"] [("Dog", 61 / 100)] from rfl]
    simp only [getScore, getScoreS, allZero_iff]
    rw [if_neg (by decide)]
    simp only [ScoreVal.toRat, getNumberOfSpeciesS, medListS_fst, medListS_snd, countListS_snd,
      List.map_cons, List.map_nil]
    rw [if_neg (by decide)]
    rw [show lookupD [("Dog", 61 / 100)] "Dog" 1 = 61 / 100 from rfl]
    rw [show (get_number_of_species acW "Cat" : ℚ) = 20 by
      norm_num [get_number_of_species, acW, List.lookup]]
    rw [show listMin [61 / 100] = 61 / 100 from rfl]
    rw [fmt1_eq_of_bounds (61 / 100 * 20) 122 (by norm_num) (by norm_num)]
    norm_num
  have ha : (getScore medAnn acW (ds0 1)).toRat = 61 / 5 := by
    rw [show medAnn = Adopter.medicated "Ann" "Cat" ["Dog"] [("Dog", 611 / 1000)] from rfl]
    simp only [getScore, getScoreS, allZero_iff]
    rw [if_neg (by decide)]
    simp only [ScoreVal.toRat, getNumberOfSpeciesS, medListS_fst, medListS_snd, countListS_snd,
      List.map_cons, List.map_nil]
    rw [if_neg (by decide)]
    rw [show lookupD [("Dog", 611 / 1000)] "Dog" 1 = 611 / 1000 from rfl]
    rw [show (get_number_of_species acW "Cat" : ℚ) = 20 by
      norm_num [get_number_of_species, acW, List.lookup]]
    rw [show listMin [611 / 1000] = 611 / 1000 from rfl]
    rw [fmt1_eq_of_bounds (611 / 1000 * 20) 122 (by norm_num) (by norm_num)]
    norm_num
  exact c10_format_then_compare.2.1 acW medBob medAnn ds0 (by rw [hb, ha])
    (String.lt_iff_toList_lt.mpr (by decide))
